import Mathlib

/-!
Verification of the trace-compatibility validation and graph-dispatch
orchestration pipeline of hwbench's hwgraph tool (graph/hwgraph.py).

The Python code is shallowly embedded: a `Trace` is the narrow view of the
trace collaborator that hwgraph.py consumes (filename, logical name,
enclosure/chassis serials, original config entries, and the list of benches
with their components and available metrics).  Printing and graph rendering
are modelled as an explicit list of `Event`s; the process-terminating
`fatal` call is modelled by an `Option CompareError` return value and a
final `Event.fatal` entry in the event list.  The renderers that live in
modules outside the provided sources (generic_graph, yerr_graph,
graph_enclosure, scaling_graph, individual_graph) are modelled from the
spec; each issues exactly one graph request and returns 1.

Message strings follow the Python format strings, with single-quote
characters dropped from the text.
-/

namespace HwGraph

/-- One bench (benchmark job) recorded inside a trace: its name, the job
name it reports, its fan components, and the names of the monitoring
metrics it exposes (`get_metric_mean` raises `KeyError` for a name not in
`metrics`). -/
structure Bench where
  name : String
  job_name : String
  fans : List String
  metrics : List String
  deriving DecidableEq, Inhabited

/-- The narrow view of the `Trace` collaborator consumed by hwgraph.py. -/
structure Trace where
  filename : String
  logical_name : String
  enclosure_serial : String
  chassis_serial : String
  original_config : List String
  benches : List Bench
  deriving DecidableEq, Inhabited

def Trace.get_original_config (t : Trace) : List String := t.original_config

def Trace.get_name (t : Trace) : String := t.logical_name

def Trace.get_filename (t : Trace) : String := t.filename

def Trace.get_enclosure_serial (t : Trace) : String := t.enclosure_serial

def Trace.get_chassis_serial (t : Trace) : String := t.chassis_serial

def Trace.bench_list (t : Trace) : List String := t.benches.map Bench.name

/-- `trace.bench(name)`: the bench of that name.  Total model of the
Python lookup; every call site passes a name drawn from `bench_list`, where
the first matching bench is returned. -/
def Trace.bench (t : Trace) (bench_name : String) : Bench :=
  (t.benches.find? (fun b => b.name == bench_name)).getD default

/-- `trace.first_bench()`: the first bench of the trace. -/
def Trace.first_bench (t : Trace) : Bench := t.benches.headD default

/-- `get_metric_mean` succeeds on a bench exactly when the metric name is
among the bench's monitoring metrics. -/
def Bench.has_metric (b : Bench) (metric : String) : Bool :=
  b.metrics.contains metric

/-- Observable actions of the pipeline: stdout prints, the five kinds of
graph requests handed to the renderer, completion of the compatibility
validation, and the process-aborting fatal error. -/
inductive Event where
  | print (msg : String)
  | enclosureGraph (bench_name : String)
  | genericGraph (bench_name : String) (metric : String) (title : String) (axis : Option String)
  | yerrGraph (bench_name : String) (metric : String) (component : String)
  | scalingGraph (job : String)
  | individualGraph (job : String)
  | validate
  | fatal (msg : String)
  deriving DecidableEq

def Event.isGraphRequest : Event → Bool
  | .enclosureGraph _ => true
  | .genericGraph _ _ _ _ => true
  | .yerrGraph _ _ _ => true
  | .scalingGraph _ => true
  | .individualGraph _ => true
  | _ => false

def Event.isComparisonGraph : Event → Bool
  | .scalingGraph _ => true
  | .individualGraph _ => true
  | _ => false

def Event.isEnclosureGraph : Event → Bool
  | .enclosureGraph _ => true
  | _ => false

def Event.isValidate : Event → Bool
  | .validate => true
  | _ => false

def Event.isFatal : Event → Bool
  | .fatal _ => true
  | _ => false

/-- The event kinds that `graph_environment` can emit. -/
def Event.isEnvKind : Event → Bool
  | .print _ => true
  | .enclosureGraph _ => true
  | .genericGraph _ _ _ _ => true
  | .yerrGraph _ _ _ => true
  | _ => false

/-- The event kinds that the per-trace fan/CPU/thermal dispatch loop can
emit. -/
def Event.isPerBenchKind : Event → Bool
  | .print _ => true
  | .genericGraph _ _ _ _ => true
  | .yerrGraph _ _ _ => true
  | _ => false

/-- The event kinds that `plot_graphs` can emit. -/
def Event.isPlotKind : Event → Bool
  | .print _ => true
  | .scalingGraph _ => true
  | .individualGraph _ => true
  | _ => false

/-- The CLI argument namespace as consumed by the pipeline.  `no_env` is
the value of `args.no_env`: because the `--no-env` flag is declared with
`action="store_false"`, its default value is `True` (environment graphs
enabled) and passing `--no-env` makes it `False`. -/
structure Args where
  traces : List Trace
  no_env : Bool
  same_enclosure : Bool
  deriving DecidableEq

/-- The two fatal situations of `compare_traces`. -/
inductive CompareError where
  | configMismatch (filename : String)
  | duplicateName (filename : String) (logical_name : String)
  deriving DecidableEq

/-- The message passed to `fatal` (quote characters dropped). -/
def fatalMsg : CompareError → String
  | .configMismatch f => f ++ " is not having the same configuration file as previous traces"
  | .duplicateName f n => f ++ " is using " ++ n ++ " as logical_name while it is already in use"

/-- `set(ref.get_original_config()).difference(t.get_original_config())`:
the entries of the reference config missing from `t`'s config. -/
def configDiff (ref t : Trace) : List String :=
  ref.get_original_config.filter (fun c => !(t.get_original_config.contains c))

/-- The loop body of `compare_traces`: walk the traces carrying the list of
logical names seen so far; abort on the first config mismatch against the
reference or on the first already-seen logical name. -/
def compare_traces_from (ref : Trace) : List String → List Trace → Option CompareError
  | _, [] => none
  | names, t :: rest =>
    if !(configDiff ref t).isEmpty then some (.configMismatch t.get_filename)
    else if names.contains t.get_name then some (.duplicateName t.get_filename t.get_name)
    else compare_traces_from ref (names ++ [t.get_name]) rest

/-- `compare_traces(args)`: check every trace (the first included) against
the first trace's original config and collect logical names; `none` means
the Comparison Set passed validation. -/
def compare_traces (traces : List Trace) : Option CompareError :=
  match traces with
  | [] => none
  | ref :: _ => compare_traces_from ref [] traces

/-- Lexicographic comparison of character lists by Unicode code point —
the order Python uses to compare strings.  (A structural recursion is used
so that concrete instantiations compute by kernel reduction.) -/
def charListLe : List Char → List Char → Bool
  | [], _ => true
  | _ :: _, [] => false
  | a :: as, b :: bs =>
    if a.toNat < b.toNat then true
    else if b.toNat < a.toNat then false
    else charListLe as bs

/-- Python's string comparison: lexicographic on code points. -/
def strLe (a b : String) : Bool := charListLe a.data b.data

/-- Python's `sorted` restricted to strings: insert into a sorted list. -/
def insertSorted (s : String) : List String → List String
  | [] => [s]
  | x :: xs => if strLe s x then s :: x :: xs else x :: insertSorted s xs

/-- Python's `sorted` on a list of strings (lexical order). -/
def sortedStrings (l : List String) : List String := l.foldr insertSorted []

/-- The `THERMAL` secondary-axis constant imported from graph.graph. -/
def THERMAL : String := "thermal"

/-- The `POWER` secondary-axis constant imported from graph.graph. -/
def POWER : String := "power"

/-- Sum up a list of (graph count, events) pairs produced by a loop of
renderer calls, keeping the events in order. -/
def accumGraphs (l : List (Nat × List Event)) : Nat × List Event :=
  l.foldr (fun p acc => (p.1 + acc.1, p.2 ++ acc.2)) (0, [])

/-- Modelled from the spec: `generic_graph` lives in graph/graph.py, which
is not among the provided sources.  Per the spec a Graph Request is one
unit of work and every dispatcher counts the requests it issued, so one
call renders exactly one graph and returns 1. -/
def generic_graph (bench : Bench) (metric : String) (title : String)
    (axis : Option String) : Nat × List Event :=
  (1, [Event.genericGraph bench.name metric title axis])

/-- Modelled from the spec: `yerr_graph` lives in graph/graph.py, which is
not among the provided sources; one call renders one error-bar graph for
one component and returns 1. -/
def yerr_graph (bench : Bench) (metric : String) (component : String) :
    Nat × List Event :=
  (1, [Event.yerrGraph bench.name metric component])

/-- Modelled from the spec: `graph_enclosure` lives in graph/enclosure.py,
which is not among the provided sources; per the spec an
environment-comparison graph is requested once per bench name. -/
def graph_enclosure (bench_name : String) : Nat × List Event :=
  (1, [Event.enclosureGraph bench_name])

/-- Modelled from the spec: `scaling_graph` lives in graph/scaling.py,
which is not among the provided sources; one cross-trace scaling plot per
job identity. -/
def scaling_graph (job : String) : Nat × List Event :=
  (1, [Event.scalingGraph job])

/-- Modelled from the spec: `individual_graph` lives in
graph/individual.py, which is not among the provided sources; one
individual-comparison plot per job identity. -/
def individual_graph (job : String) : Nat × List Event :=
  (1, [Event.individualGraph job])

/-- `graph_fans(args, trace, bench_name, output_dir)`. -/
def graph_fans (trace : Trace) (bench_name : String) : Nat × List Event :=
  let bench := trace.bench bench_name
  if bench.fans.isEmpty then
    (0, [Event.print (bench_name ++ ": no fans")])
  else
    accumGraphs
      ([generic_graph bench "fan" "Fans speed" (some THERMAL),
        generic_graph bench "fan" "Fans speed" (some POWER)] ++
        bench.fans.map (fun fan => yerr_graph bench "fan" fan))

/-- The `cpu_graphs` dictionary of `graph_cpu`, in insertion order. -/
def cpu_graphs : List (String × String) :=
  [("watt_core", "Core power consumption"),
   ("package", "Package power consumption"),
   ("mhz_core", "Core frequency")]

/-- `graph_cpu(args, trace, bench_name, output_dir)`: each metric family
rendered with each of the three secondary axes. -/
def graph_cpu (trace : Trace) (bench_name : String) : Nat × List Event :=
  let bench := trace.bench bench_name
  accumGraphs (cpu_graphs.map (fun g =>
    accumGraphs ([none, some THERMAL, some POWER].map
      (fun axis => generic_graph bench g.1 g.2 axis))))

/-- `graph_thermal(args, trace, bench_name, output_dir)`. -/
def graph_thermal (trace : Trace) (bench_name : String) : Nat × List Event :=
  let bench := trace.bench bench_name
  generic_graph bench "temp" "Temperatures" none

/-- The informational notice of the enclosure auto-detection step. -/
def enclosureNoticeMsg (serial : String) : String :=
  "environment: All traces are from the same enclosure (" ++ serial ++
    "), enabling --same-enclosure feature"

/-- Lines 130-138 of hwgraph.py: read the reference trace's enclosure
serial; when it is non-empty and every trace reports the same serial, the
same-enclosure flag becomes `true` with a notice, otherwise the flag keeps
the value it had. -/
def same_enclosure_step (traces : List Trace) (flag : Bool) : Bool × List Event :=
  match traces with
  | [] => (flag, [])
  | ref :: _ =>
    let enclosure := ref.get_enclosure_serial
    if enclosure = "" then (flag, [])
    else
      let enclosures := traces.map (fun t => t.get_enclosure_serial == enclosure)
      if enclosures.count true == traces.length then
        (true, [Event.print (enclosureNoticeMsg enclosure)])
      else (flag, [])

/-- The same-enclosure flag in force at line 140 of hwgraph.py: the user
preference possibly upgraded by the auto-detection step. -/
def resolved_same_enclosure (args : Args) : Bool :=
  (same_enclosure_step args.traces args.same_enclosure).1

/-- The error message of the unreachable chassis-count branch of
`valid_traces`. -/
def chassisNotUniqueMsg : String :=
  "environment: chassis are not unique, disabling same-enclosure print"

/-- The missing-metric message of `valid_traces` (quote characters
dropped). -/
def missingMetricMsg (metric filename : String) : String :=
  "environment: missing " ++ metric ++ " monitoric metric in " ++ filename ++
    ", disabling same-enclosure print"

/-- The metric name whose `get_metric_mean` lookup raises `KeyError` first
on this trace's first bench, following the loop order
`["chassis", "enclosure"]`. -/
def missing_metric (t : Trace) : Option String :=
  if !(t.first_bench.has_metric "chassis") then some "chassis"
  else if !(t.first_bench.has_metric "enclosure") then some "enclosure"
  else none

/-- The first trace (in input order) lacking a chassis or enclosure metric
on its first bench, with the metric name that was missing. -/
def first_missing : List Trace → Option (Trace × String)
  | [] => none
  | t :: rest =>
    match missing_metric t with
    | some m => some (t, m)
    | none => first_missing rest

/-- The inner `valid_traces(args)` function of `graph_environment`.  The
Python function returns an error string with the empty string meaning
success; success is modelled as `none`. -/
def valid_traces (traces : List Trace) : Option String :=
  let chassis := traces.map Trace.get_chassis_serial
  if chassis.length == traces.length then
    match first_missing traces with
    | some (t, m) => some (missingMetricMsg m t.get_filename)
    | none => none
  else some chassisNotUniqueMsg

/-- The environment-comparison stage: one `graph_enclosure` request per
sorted bench name of the reference trace. -/
def enclosure_graphs (traces : List Trace) : Nat × List Event :=
  match traces with
  | [] => (0, [])
  | ref :: _ =>
    accumGraphs ((sortedStrings ref.bench_list).map (fun bn => graph_enclosure bn))

/-- The per-trace summary line printed by the dispatch loop of
`graph_environment`. -/
def renderingMsg (t : Trace) : String :=
  let n := t.bench_list.length
  "environment: rendering " ++ toString n ++ " jobs from " ++ t.get_filename ++
    " (" ++ t.get_name ++ ")"

/-- The final loop of `graph_environment`: for every trace, print the
summary line and dispatch fan, CPU and thermal graphs for every bench name
in sorted order.  (The per-trace subdirectory creation touches only the
filesystem and is not modelled.) -/
def per_trace_env (traces : List Trace) : Nat × List Event :=
  accumGraphs (traces.map (fun t =>
    accumGraphs
      ((0, [Event.print (renderingMsg t)]) ::
        (sortedStrings t.bench_list).map (fun bn =>
          accumGraphs [graph_fans t bn, graph_cpu t bn, graph_thermal t bn]))))

/-- Lines 140-163 of hwgraph.py: when the same-enclosure preference is
active, either render the environment-comparison graphs (validity gate
passed) or print the disabling notice returned by `valid_traces`. -/
def env_gate (traces : List Trace) (flag : Bool) : Nat × List Event :=
  if flag then
    match valid_traces traces with
    | none => enclosure_graphs traces
    | some msg => (0, [Event.print msg])
  else (0, [])

/-- `graph_environment(args, output_dir)`: returns the rendered-graph
count, the events, and the value of `args.same_enclosure` after the
in-place mutation by the auto-detection step. -/
def graph_environment (args : Args) : Nat × List Event × Bool :=
  if !args.no_env then
    (0, [Event.print "environment: disabled by user"], args.same_enclosure)
  else
    let step := same_enclosure_step args.traces args.same_enclosure
    let gate := env_gate args.traces step.1
    let per := per_trace_env args.traces
    (gate.1 + per.1, step.2 ++ gate.2 ++ per.2, step.1)

/-- The job-identity fold of `plot_graphs`: walk the sorted bench names of
the reference trace and keep the first occurrence of each job name. -/
def jobs_of (ref : Trace) : List String :=
  (sortedStrings ref.bench_list).foldl (fun jobs bn =>
    let j := (ref.bench bn).job_name
    if jobs.contains j then jobs else jobs ++ [j]) []

/-- The job identities the comparison stages iterate over: those of the
first trace of the Comparison Set. -/
def jobsOfArgs (args : Args) : List String :=
  match args.traces with
  | [] => []
  | ref :: _ => jobs_of ref

def scalingHeader (k : Nat) : String :=
  "Scaling: rendering " ++ toString k ++ " jobs"

def individualHeader (k : Nat) : String :=
  "Individual: rendering " ++ toString k ++ " jobs"

/-- `plot_graphs(args, output_dir)`: derive the job identities from the
first trace, then render one scaling and one individual graph per job. -/
def plot_graphs (args : Args) : Nat × List Event :=
  match args.traces with
  | [] => (0, [])
  | ref :: _ =>
    let jobs := jobs_of ref
    let k := jobs.length
    let scal := accumGraphs (jobs.map (fun job => scaling_graph job))
    let ind := accumGraphs (jobs.map (fun job => individual_graph job))
    (scal.1 + ind.1,
      Event.print (scalingHeader k) :: scal.2 ++
        Event.print (individualHeader k) :: ind.2)

/-- `render_traces(args)`: environment stage first, then the compatibility
validation, then the scaling/individual stage.  A `fatal` inside
`compare_traces` terminates the process, so the event list ends at the
fatal message; a successful validation is marked by `Event.validate`.
(The final stdout summary line only repeats the count and the output
directory and is not modelled.) -/
def render_traces (args : Args) : Nat × List Event :=
  let env := graph_environment args
  match compare_traces args.traces with
  | some e => (env.1, env.2.1 ++ [Event.fatal (fatalMsg e)])
  | none =>
    let plots := plot_graphs args
    (env.1 + plots.1, env.2.1 ++ Event.validate :: plots.2)

/-- Reference characterisation of the job-identity fold: keep the first
occurrence of every string, in order. -/
def dedupFirstSeen : List String → List String
  | [] => []
  | x :: xs => x :: dedupFirstSeen (xs.filter (fun y => y != x))
  termination_by l => l.length
  decreasing_by simp_wf; exact Nat.lt_succ_of_le (List.length_filter_le _ _)

/-! Concrete fixtures used to instantiate the theorems. -/

/-- A bench with three fans and both environment metrics. -/
def fanBench : Bench := ⟨"b1", "avx", ["fan1", "fan2", "fan3"], ["chassis", "enclosure"]⟩

/-- A bench with no fans and both environment metrics. -/
def plainBench : Bench := ⟨"b2", "avx", [], ["chassis", "enclosure"]⟩

/-- A bench with no monitoring metrics at all. -/
def bareBench : Bench := ⟨"b3", "mem", [], []⟩

def traceA : Trace := ⟨"a.json", "A", "E1", "CA", ["x"], [fanBench]⟩

def traceB : Trace := ⟨"b.json", "B", "E1", "CB", ["x"], [plainBench]⟩

/-- A trace whose original config omits the entry `x` of the reference. -/
def traceBad : Trace := ⟨"c.json", "C", "E1", "CC", [], [fanBench]⟩

/-- A trace reusing the logical name `A` of `traceA`. -/
def traceDupA : Trace := ⟨"d.json", "A", "E1", "CD", ["x"], [fanBench]⟩

/-- A trace whose first bench lacks the chassis and enclosure metrics. -/
def traceNoMetric : Trace := ⟨"m.json", "M", "E1", "CM", ["x"], [bareBench]⟩

/-- A trace from a different enclosure. -/
def traceOtherEnc : Trace := ⟨"e.json", "E", "E2", "CE", ["x"], [plainBench]⟩

/-- A valid two-trace Comparison Set. -/
def argsOk : Args := ⟨[traceA, traceB], true, false⟩

/-- A Comparison Set with a config mismatch in the second trace. -/
def argsMismatch : Args := ⟨[traceA, traceBad], true, false⟩

/-- Same-enclosure requested, and the second trace lacks the environment
metrics on its first bench. -/
def argsNoMetric : Args := ⟨[traceA, traceNoMetric], true, true⟩

/-- A Comparison Set whose second trace reuses the logical name `A`. -/
def argsDup : Args := ⟨[traceA, traceDupA], true, false⟩

/-- A reference trace whose four benches report the job-name sequence
A, B, A, C in sorted bench-name order. -/
def traceJobs : Trace :=
  ⟨"j.json", "J", "", "CJ", ["x"],
    [⟨"j1", "A", [], []⟩, ⟨"j2", "B", [], []⟩, ⟨"j3", "A", [], []⟩, ⟨"j4", "C", [], []⟩]⟩

/-- A single-trace Comparison Set around `traceJobs`. -/
def argsJobs : Args := ⟨[traceJobs], true, false⟩

/-! Infrastructure lemmas. -/

theorem accumGraphs_nil : accumGraphs [] = (0, []) := rfl

theorem accumGraphs_cons (x : Nat × List Event) (l : List (Nat × List Event)) :
    accumGraphs (x :: l) = (x.1 + (accumGraphs l).1, x.2 ++ (accumGraphs l).2) := rfl

theorem accumGraphs_fst (l : List (Nat × List Event)) :
    (accumGraphs l).1 = (l.map Prod.fst).sum := by
  induction l with
  | nil => rfl
  | cons x xs ih => simp [accumGraphs_cons, ih]

theorem accumGraphs_snd (l : List (Nat × List Event)) :
    (accumGraphs l).2 = (l.map Prod.snd).join := by
  induction l with
  | nil => rfl
  | cons x xs ih => simp [accumGraphs_cons, ih]

theorem mem_accumGraphs {e : Event} {l : List (Nat × List Event)} :
    e ∈ (accumGraphs l).2 ↔ ∃ x ∈ l, e ∈ x.2 := by
  induction l with
  | nil => simp [accumGraphs_nil]
  | cons x xs ih => simp [accumGraphs_cons, ih]

theorem accumGraphs_events {p : Event → Bool} {l : List (Nat × List Event)}
    (h : ∀ x ∈ l, ∀ e ∈ x.2, p e = true) :
    ∀ e ∈ (accumGraphs l).2, p e = true := by
  intro e he
  rcases mem_accumGraphs.mp he with ⟨x, hx, hex⟩
  exact h x hx e hex

theorem sum_map_one {α : Type} (l : List α) : (l.map (fun _ => (1 : Nat))).sum = l.length := by
  induction l with
  | nil => rfl
  | cons x xs ih => simp [ih, Nat.add_comm]

theorem accumGraphs_map_single_fst (g : String → Nat × List Event)
    (hg : ∀ j, (g j).1 = 1) (l : List String) :
    (accumGraphs (l.map g)).1 = l.length := by
  induction l with
  | nil => rfl
  | cons x xs ih =>
    rw [List.map_cons, accumGraphs_cons]
    show (g x).1 + (accumGraphs (xs.map g)).1 = xs.length + 1
    rw [hg x, ih]
    omega

theorem contains_iff_mem {l : List String} {a : String} : l.contains a = true ↔ a ∈ l := by
  simp [List.contains]

theorem count_true_map_eq_length {α : Type} (f : α → Bool) (l : List α) :
    ((l.map f).count true = l.length) ↔ ∀ x ∈ l, f x = true := by
  induction l with
  | nil => simp
  | cons x xs ih =>
    cases hx : f x with
    | false =>
      have hc : ((x :: xs).map f).count true = (xs.map f).count true := by
        simp [List.count_cons, hx]
      have hle : (xs.map f).count true ≤ xs.length := by
        calc (xs.map f).count true ≤ (xs.map f).length := List.count_le_length _ _
          _ = xs.length := List.length_map _ _
      rw [hc, List.length_cons]
      constructor
      · intro h
        exact absurd h (by omega)
      · intro h
        exact absurd (h x (by simp)) (by simp [hx])
    | true =>
      have hc : ((x :: xs).map f).count true = (xs.map f).count true + 1 := by
        simp [List.count_cons, hx]
      rw [hc, List.length_cons]
      constructor
      · intro h y hy
        rcases List.mem_cons.mp hy with rfl | hy
        · exact hx
        · exact ih.mp (by omega) y hy
      · intro h
        have hxs : (xs.map f).count true = xs.length :=
          ih.mpr (fun y hy => h y (List.mem_cons_of_mem _ hy))
        omega

theorem configDiff_eq_nil_iff (ref t : Trace) :
    configDiff ref t = [] ↔
      ∀ c ∈ ref.get_original_config, c ∈ t.get_original_config := by
  simp [configDiff, List.filter_eq_nil_iff, List.contains]

theorem configDiff_self (t : Trace) : configDiff t t = [] :=
  (configDiff_eq_nil_iff t t).mpr (fun _ hc => hc)

theorem compare_traces_from_append (ref : Trace) (l rest : List Trace) (names : List String)
    (hcfg : ∀ u ∈ l, configDiff ref u = [])
    (hnd : (names ++ l.map Trace.get_name).Nodup) :
    compare_traces_from ref names (l ++ rest) =
      compare_traces_from ref (names ++ l.map Trace.get_name) rest := by
  induction l generalizing names with
  | nil => simp
  | cons u us ih =>
    have hu : configDiff ref u = [] := hcfg u (by simp)
    have hnotmem : u.get_name ∉ names := by
      intro hmem
      rcases List.nodup_append.mp hnd with ⟨_, _, hdisj⟩
      exact hdisj hmem (by simp)
    have hcont : names.contains u.get_name = false := by
      rw [Bool.eq_false_iff]
      intro hc
      exact hnotmem (contains_iff_mem.mp hc)
    rw [List.cons_append]
    show compare_traces_from ref names (u :: (us ++ rest)) = _
    rw [compare_traces_from, hu]
    simp only [List.isEmpty_nil, Bool.not_true, Bool.false_eq_true, if_false, hcont]
    rw [ih (names ++ [u.get_name]) (fun v hv => hcfg v (by simp [hv]))
      (by rwa [List.append_assoc, List.singleton_append])]
    rw [List.append_assoc, List.singleton_append]
    rfl

theorem compare_traces_from_ok (ref : Trace) (l : List Trace) (names : List String)
    (hcfg : ∀ u ∈ l, configDiff ref u = [])
    (hnd : (names ++ l.map Trace.get_name).Nodup) :
    compare_traces_from ref names l = none := by
  have h := compare_traces_from_append ref l [] names hcfg hnd
  rw [List.append_nil] at h
  rw [h]
  rfl

/-- C2 counterexample: the set `[traceA, traceDupA, traceBad]` has a trace
(`traceBad`, file c.json) whose original config omits the reference entry
`x`, yet `compare_traces` aborts with the duplicate-name error for
d.json, not with a configuration-mismatch error naming c.json. -/
theorem compare_traces_dup_preempts_config :
    configDiff traceA traceBad ≠ [] ∧
    traceBad ∈ [traceA, traceDupA, traceBad] ∧
    compare_traces [traceA, traceDupA, traceBad] =
      some (.duplicateName "d.json" "A") ∧
    compare_traces [traceA, traceDupA, traceBad] ≠
      some (.configMismatch "c.json") := by
  decide

/-- C2 (amended): if some trace's original config omits an entry of the
reference trace's original config, and no duplicate logical name occurs up
to the first such trace, then `compare_traces` aborts with the fatal
configuration-mismatch error naming that trace's filename, and
`render_traces` stops there: nothing is emitted after the fatal message. -/
theorem compare_traces_config_mismatch (args : Args) (ref : Trace)
    (pre post : List Trace) (t : Trace)
    (htr : args.traces = ref :: (pre ++ t :: post))
    (hpre : ∀ u ∈ pre, configDiff ref u = [])
    (ht : configDiff ref t ≠ [])
    (hnames : ((ref :: pre).map Trace.get_name).Nodup) :
    compare_traces args.traces = some (.configMismatch t.get_filename) ∧
    (render_traces args).2 =
      (graph_environment args).2.1 ++
        [Event.fatal (fatalMsg (.configMismatch t.get_filename))] := by
  have hmain : compare_traces args.traces = some (.configMismatch t.get_filename) := by
    rw [htr]
    rw [show compare_traces (ref :: (pre ++ t :: post)) =
      compare_traces_from ref [] ((ref :: pre) ++ (t :: post)) from rfl]
    have happ := compare_traces_from_append ref (ref :: pre) (t :: post) []
      (by
        intro u hu
        rcases List.mem_cons.mp hu with rfl | hu
        · exact configDiff_self u
        · exact hpre u hu)
      (by simpa using hnames)
    rw [happ, compare_traces_from]
    have : (configDiff ref t).isEmpty = false := by
      cases hd : configDiff ref t with
      | nil => exact absurd hd ht
      | cons a as => rfl
    rw [this]
    rfl
  refine ⟨hmain, ?_⟩
  unfold render_traces
  rw [hmain]

theorem compare_traces_duplicate_aux (ref : Trace) (pre post : List Trace) (t : Trace)
    (hcfg : ∀ u ∈ ref :: (pre ++ t :: post), configDiff ref u = [])
    (hnodup : ((ref :: pre).map Trace.get_name).Nodup)
    (hmem : t.get_name ∈ (ref :: pre).map Trace.get_name) :
    compare_traces (ref :: (pre ++ t :: post)) =
      some (.duplicateName t.get_filename t.get_name) := by
  rw [show compare_traces (ref :: (pre ++ t :: post)) =
    compare_traces_from ref [] ((ref :: pre) ++ (t :: post)) from rfl]
  have happ := compare_traces_from_append ref (ref :: pre) (t :: post) []
    (fun u hu => hcfg u (by
      rcases List.mem_cons.mp hu with rfl | hu
      · exact List.mem_cons_self _ _
      · exact List.mem_cons_of_mem _ (List.mem_append_left _ hu)))
    (by simpa using hnodup)
  rw [happ, compare_traces_from]
  have hdt : configDiff ref t = [] :=
    hcfg t (List.mem_cons_of_mem _ (List.mem_append_right _ (List.mem_cons_self _ _)))
  rw [hdt]
  have hcont : (([] ++ (ref :: pre).map Trace.get_name).contains t.get_name) = true := by
    rw [List.nil_append]
    exact contains_iff_mem.mpr hmem
  simp only [List.isEmpty_nil, Bool.not_true, Bool.false_eq_true, if_false, hcont, if_true]

/-- C3: in a Comparison Set whose configs are all compatible with the
reference, a trace `t` whose logical name already occurred among the
earlier traces (which are themselves duplicate-free, so `t` is the second
occurrence) makes `compare_traces` abort with the fatal duplicate-name
error naming `t`'s filename and the conflicting logical name, wherever the
pair sits in the order. -/
theorem compare_traces_duplicate_name (args : Args) (ref : Trace)
    (pre post : List Trace) (t : Trace)
    (htr : args.traces = ref :: (pre ++ t :: post))
    (hcfg : ∀ u ∈ args.traces, configDiff ref u = [])
    (hnodup : ((ref :: pre).map Trace.get_name).Nodup)
    (hmem : t.get_name ∈ (ref :: pre).map Trace.get_name) :
    compare_traces args.traces = some (.duplicateName t.get_filename t.get_name) ∧
    (render_traces args).2 =
      (graph_environment args).2.1 ++
        [Event.fatal (fatalMsg (.duplicateName t.get_filename t.get_name))] := by
  rw [htr] at hcfg
  have hmain : compare_traces args.traces =
      some (.duplicateName t.get_filename t.get_name) := by
    rw [htr]
    exact compare_traces_duplicate_aux ref pre post t hcfg hnodup hmem
  refine ⟨hmain, ?_⟩
  unfold render_traces
  rw [hmain]

/-- Witness for the amended C2 theorem: on `[traceA, traceBad]` the
validator aborts naming c.json and the run ends at the fatal message. -/
theorem compare_traces_config_mismatch_witness :
    compare_traces argsMismatch.traces = some (.configMismatch "c.json") ∧
    (render_traces argsMismatch).2 =
      (graph_environment argsMismatch).2.1 ++
        [Event.fatal (fatalMsg (.configMismatch "c.json"))] :=
  compare_traces_config_mismatch argsMismatch traceA [] [] traceBad rfl
    (by simp) (by decide) (by decide)

/-- Witness for the C3 theorem: on `[traceA, traceDupA]` the validator
aborts naming d.json and the duplicated logical name `A`. -/
theorem compare_traces_duplicate_name_witness :
    compare_traces argsDup.traces = some (.duplicateName "d.json" "A") ∧
    (render_traces argsDup).2 =
      (graph_environment argsDup).2.1 ++
        [Event.fatal (fatalMsg (.duplicateName "d.json" "A"))] :=
  compare_traces_duplicate_name argsDup traceA [] [] traceDupA rfl
    (by decide) (by decide) (by decide)

/-- C4: when every trace's original config equals the reference's and the
logical names are pairwise distinct, `compare_traces` does not abort; the
single-trace set is the degenerate case (the reference is checked against
itself harmlessly). -/
theorem compare_traces_ok (ref : Trace) (rest : List Trace)
    (hcfg : ∀ u ∈ ref :: rest, u.get_original_config = ref.get_original_config)
    (hnodup : ((ref :: rest).map Trace.get_name).Nodup) :
    compare_traces (ref :: rest) = none := by
  show compare_traces_from ref [] (ref :: rest) = none
  exact compare_traces_from_ok ref (ref :: rest) []
    (fun u hu =>
      (configDiff_eq_nil_iff ref u).mpr (fun c hc => by
        have h2 : u.get_original_config = ref.get_original_config := hcfg u hu
        rw [h2]
        exact hc))
    (by simpa using hnodup)

/-- Witness for the C4 theorem: the two-trace set with equal configs and
distinct names passes, and so does the degenerate single-trace set. -/
theorem compare_traces_ok_witness :
    compare_traces [traceA, traceB] = none ∧ compare_traces [traceA] = none :=
  ⟨compare_traces_ok traceA [traceB] (by decide) (by decide),
   compare_traces_ok traceA [] (by decide) (by decide)⟩

/-! Event-shape lemmas for the environment and comparison stages. -/

theorem perBenchKind_envKind (e : Event) (h : e.isPerBenchKind = true) :
    e.isEnvKind = true := by
  cases e <;> simp_all [Event.isPerBenchKind, Event.isEnvKind]

theorem envKind_excludes (e : Event) (h : e.isEnvKind = true) :
    e.isComparisonGraph = false ∧ e.isValidate = false ∧ e.isFatal = false := by
  cases e <;> simp_all [Event.isEnvKind, Event.isComparisonGraph, Event.isValidate,
    Event.isFatal]

theorem perBenchKind_excludes (e : Event) (h : e.isPerBenchKind = true) :
    e.isEnclosureGraph = false ∧ e.isComparisonGraph = false ∧
      e.isValidate = false ∧ e.isFatal = false := by
  cases e <;> simp_all [Event.isPerBenchKind, Event.isEnclosureGraph,
    Event.isComparisonGraph, Event.isValidate, Event.isFatal]

theorem plotKind_excludes (e : Event) (h : e.isPlotKind = true) :
    e.isEnclosureGraph = false ∧ e.isValidate = false ∧ e.isFatal = false := by
  cases e <;> simp_all [Event.isPlotKind, Event.isEnclosureGraph, Event.isValidate,
    Event.isFatal]

theorem same_enclosure_step_events (l : List Trace) (flag : Bool) :
    ∀ e ∈ (same_enclosure_step l flag).2, e.isPerBenchKind = true := by
  intro e he
  cases l with
  | nil => simp [same_enclosure_step] at he
  | cons r rest =>
    simp only [same_enclosure_step] at he
    split at he
    · simp at he
    · split at he
      · rw [List.mem_singleton.mp he]
        rfl
      · simp at he

theorem graph_fans_events (t : Trace) (bn : String) :
    ∀ e ∈ (graph_fans t bn).2, e.isPerBenchKind = true := by
  intro e he
  simp only [graph_fans] at he
  split at he
  · rw [List.mem_singleton.mp he]
    rfl
  · refine accumGraphs_events ?_ e he
    intro x hx e2 he2
    rcases List.mem_append.mp hx with hx | hx
    · simp only [List.mem_cons, List.not_mem_nil, or_false] at hx
      rcases hx with rfl | rfl <;> (rw [List.mem_singleton.mp he2]; rfl)
    · rcases List.mem_map.mp hx with ⟨fan, _, rfl⟩
      rw [List.mem_singleton.mp he2]
      rfl

theorem graph_cpu_events (t : Trace) (bn : String) :
    ∀ e ∈ (graph_cpu t bn).2, e.isPerBenchKind = true := by
  intro e he
  simp only [graph_cpu] at he
  refine accumGraphs_events ?_ e he
  intro x hx e2 he2
  rcases List.mem_map.mp hx with ⟨g, _, rfl⟩
  refine accumGraphs_events ?_ e2 he2
  intro y hy e3 he3
  rcases List.mem_map.mp hy with ⟨axis, _, rfl⟩
  rw [List.mem_singleton.mp he3]
  rfl

theorem graph_thermal_events (t : Trace) (bn : String) :
    ∀ e ∈ (graph_thermal t bn).2, e.isPerBenchKind = true := by
  intro e he
  rw [List.mem_singleton.mp he]
  rfl

theorem per_trace_env_events (traces : List Trace) :
    ∀ e ∈ (per_trace_env traces).2, e.isPerBenchKind = true := by
  intro e he
  refine accumGraphs_events ?_ e he
  intro x hx e2 he2
  rcases List.mem_map.mp hx with ⟨t, _, rfl⟩
  refine accumGraphs_events ?_ e2 he2
  intro y hy e3 he3
  rcases List.mem_cons.mp hy with rfl | hy
  · rw [List.mem_singleton.mp he3]
    rfl
  · rcases List.mem_map.mp hy with ⟨bn, _, rfl⟩
    refine accumGraphs_events ?_ e3 he3
    intro z hz e4 he4
    simp only [List.mem_cons, List.not_mem_nil, or_false] at hz
    rcases hz with rfl | rfl | rfl
    · exact graph_fans_events t bn e4 he4
    · exact graph_cpu_events t bn e4 he4
    · exact graph_thermal_events t bn e4 he4

theorem enclosure_graphs_events (traces : List Trace) :
    ∀ e ∈ (enclosure_graphs traces).2, e.isEnvKind = true := by
  intro e he
  cases traces with
  | nil => simp [enclosure_graphs] at he
  | cons r rest =>
    simp only [enclosure_graphs] at he
    rcases mem_accumGraphs.mp he with ⟨x, hx, hex⟩
    rcases List.mem_map.mp hx with ⟨bn, _, rfl⟩
    rw [List.mem_singleton.mp hex]
    rfl

theorem env_gate_events (traces : List Trace) (flag : Bool) :
    ∀ e ∈ (env_gate traces flag).2, e.isEnvKind = true := by
  intro e he
  simp only [env_gate] at he
  split at he
  · rcases hv : valid_traces traces with _ | msg <;> rw [hv] at he
    · exact enclosure_graphs_events traces e he
    · rw [List.mem_singleton.mp he]
      rfl
  · simp at he

theorem graph_environment_events (args : Args) :
    ∀ e ∈ (graph_environment args).2.1, e.isEnvKind = true := by
  intro e he
  simp only [graph_environment] at he
  split at he
  · rw [List.mem_singleton.mp he]
    rfl
  · rcases List.mem_append.mp he with he | he
    · rcases List.mem_append.mp he with he | he
      · exact perBenchKind_envKind e (same_enclosure_step_events _ _ e he)
      · exact env_gate_events _ _ e he
    · exact perBenchKind_envKind e (per_trace_env_events _ e he)

theorem scaling_individual_events (jobs : List String) :
    (∀ e ∈ (accumGraphs (jobs.map (fun job => scaling_graph job))).2, e.isPlotKind = true) ∧
    (∀ e ∈ (accumGraphs (jobs.map (fun job => individual_graph job))).2, e.isPlotKind = true) := by
  constructor <;>
    (refine accumGraphs_events ?_
     intro x hx e2 he2
     rcases List.mem_map.mp hx with ⟨j, _, rfl⟩
     rw [List.mem_singleton.mp he2]
     rfl)

theorem plot_graphs_events (args : Args) :
    ∀ e ∈ (plot_graphs args).2, e.isPlotKind = true := by
  intro e he
  cases htr : args.traces with
  | nil => rw [plot_graphs, htr] at he; simp at he
  | cons ref rest =>
    rw [plot_graphs, htr] at he
    simp only at he
    rcases List.mem_cons.mp he with rfl | he
    · rfl
    · rcases List.mem_append.mp he with he | he
      · exact (scaling_individual_events _).1 e he
      · rcases List.mem_cons.mp he with rfl | he
        · rfl
        · exact (scaling_individual_events _).2 e he

theorem takeWhile_append_of_all {q : Event → Bool} (l1 l2 : List Event)
    (h : ∀ e ∈ l1, q e = true) :
    (l1 ++ l2).takeWhile q = l1 ++ l2.takeWhile q := by
  induction l1 with
  | nil => simp
  | cons x xs ih =>
    have hx := h x (List.mem_cons_self _ _)
    simp [List.takeWhile_cons, hx, ih (fun e he => h e (List.mem_cons_of_mem _ he))]

/-- C1 counterexample: on the Comparison Set `[traceA, traceBad]`, which
`compare_traces` rejects, `render_traces` nevertheless issues graph
requests: the event trace contains graph requests and the fatal abort, but
validation never completes, so graphs were generated against a Comparison
Set that was never validated. -/
theorem graphs_rendered_before_validation :
    ((render_traces argsMismatch).2.any Event.isGraphRequest) = true ∧
    Event.validate ∉ (render_traces argsMismatch).2 ∧
    ((render_traces argsMismatch).2.any Event.isFatal) = true := by
  decide

/-- C1 (amended): the Compatibility Validator runs to completion (or
aborts) before any scaling or individual graph is requested — no
comparison-stage graph request precedes the validation marker, and the
marker is reached exactly when `compare_traces` accepts the set.  (The
environment and per-bench graphs of `graph_environment`, by contrast, are
issued before validation, as the counterexample shows.) -/
theorem validation_precedes_comparison_graphs (args : Args) :
    (((render_traces args).2.takeWhile (fun e => !e.isValidate)).all
        (fun e => !e.isComparisonGraph)) = true ∧
    (Event.validate ∈ (render_traces args).2 ↔ compare_traces args.traces = none) := by
  have henv := graph_environment_events args
  rcases hc : compare_traces args.traces with _ | err
  · have hev : (render_traces args).2 =
        (graph_environment args).2.1 ++ Event.validate :: (plot_graphs args).2 := by
      unfold render_traces
      rw [hc]
    rw [hev]
    constructor
    · rw [takeWhile_append_of_all _ _ (fun e he => by
        rw [(envKind_excludes e (henv e he)).2.1]
        rfl)]
      rw [List.takeWhile_cons]
      simp only [Event.isValidate, Bool.not_true, Bool.false_eq_true, if_false,
        List.append_nil]
      rw [List.all_eq_true]
      intro e he
      rw [(envKind_excludes e (henv e he)).1]
      rfl
    · simp
  · have hev : (render_traces args).2 =
        (graph_environment args).2.1 ++ [Event.fatal (fatalMsg err)] := by
      unfold render_traces
      rw [hc]
    rw [hev]
    constructor
    · rw [takeWhile_append_of_all _ _ (fun e he => by
        rw [(envKind_excludes e (henv e he)).2.1]
        rfl)]
      rw [List.all_append, Bool.and_eq_true]
      constructor
      · rw [List.all_eq_true]
        intro e he
        rw [(envKind_excludes e (henv e he)).1]
        rfl
      · rfl
    · constructor
      · intro hvmem
        rcases List.mem_append.mp hvmem with hvmem | hvmem
        · have := henv _ hvmem
          simp [Event.isEnvKind] at this
        · simp at hvmem
      · intro h
        cases h

/-- Witness for the C1 amended theorem at a concrete valid input. -/
theorem validation_precedes_comparison_graphs_witness :
    (((render_traces argsOk).2.takeWhile (fun e => !e.isValidate)).all
        (fun e => !e.isComparisonGraph)) = true ∧
    (Event.validate ∈ (render_traces argsOk).2 ↔ compare_traces argsOk.traces = none) :=
  validation_precedes_comparison_graphs argsOk

/-! The enclosure context resolver. -/

theorem same_enclosure_step_all (ref : Trace) (rest : List Trace) (flag : Bool)
    (hne : ref.get_enclosure_serial ≠ "")
    (hall : ∀ t ∈ ref :: rest, t.get_enclosure_serial = ref.get_enclosure_serial) :
    same_enclosure_step (ref :: rest) flag =
      (true, [Event.print (enclosureNoticeMsg ref.get_enclosure_serial)]) := by
  have hcount : (((ref :: rest).map
      (fun t => t.get_enclosure_serial == ref.get_enclosure_serial)).count true) =
      (ref :: rest).length :=
    (count_true_map_eq_length _ _).mpr (fun t ht => by
      rw [hall t ht]
      exact beq_self_eq_true _)
  have hbeq : ((((ref :: rest).map
      (fun t => t.get_enclosure_serial == ref.get_enclosure_serial)).count true) ==
      (ref :: rest).length) = true := by
    rw [hcount]
    exact beq_self_eq_true _
  simp only [same_enclosure_step]
  rw [if_neg hne, hbeq]
  rfl

theorem same_enclosure_step_diff (ref : Trace) (rest : List Trace) (flag : Bool)
    (hdiff : ∃ t ∈ ref :: rest, t.get_enclosure_serial ≠ ref.get_enclosure_serial) :
    (same_enclosure_step (ref :: rest) flag).1 = flag := by
  rcases hdiff with ⟨t0, ht0, hneq⟩
  simp only [same_enclosure_step]
  split
  · rfl
  · split
    next hcond =>
      exfalso
      have hall := (count_true_map_eq_length
        (fun t => t.get_enclosure_serial == ref.get_enclosure_serial) (ref :: rest)).mp
        (eq_of_beq hcond)
      exact hneq (by simpa using hall t0 ht0)
    next => rfl

theorem graph_environment_eq (args : Args) (h : args.no_env = true) :
    graph_environment args =
      ((env_gate args.traces (same_enclosure_step args.traces args.same_enclosure).1).1 +
          (per_trace_env args.traces).1,
        (same_enclosure_step args.traces args.same_enclosure).2 ++
          (env_gate args.traces (same_enclosure_step args.traces args.same_enclosure).1).2 ++
          (per_trace_env args.traces).2,
        (same_enclosure_step args.traces args.same_enclosure).1) := by
  simp [graph_environment, h]

/-- C5: with environment graphs enabled, if the reference trace reports a
non-empty enclosure serial and every trace reports that same serial, the
same-enclosure preference ends up `true` — regardless of what the user
passed — and the informational notice naming the serial is printed; if
some trace reports a different serial, the preference keeps the
user-supplied value. -/
theorem graph_environment_enclosure_detection (args : Args) (ref : Trace)
    (rest : List Trace) (htr : args.traces = ref :: rest)
    (henv : args.no_env = true) :
    ((ref.get_enclosure_serial ≠ "" ∧
        ∀ t ∈ args.traces, t.get_enclosure_serial = ref.get_enclosure_serial) →
      (graph_environment args).2.2 = true ∧
        Event.print (enclosureNoticeMsg ref.get_enclosure_serial) ∈
          (graph_environment args).2.1) ∧
    ((∃ t ∈ args.traces, t.get_enclosure_serial ≠ ref.get_enclosure_serial) →
      (graph_environment args).2.2 = args.same_enclosure) := by
  rw [graph_environment_eq args henv]
  constructor
  · rintro ⟨hne, hall⟩
    rw [htr] at hall ⊢
    rw [same_enclosure_step_all ref rest args.same_enclosure hne hall]
    refine ⟨rfl, ?_⟩
    exact List.mem_append_left _ (List.mem_append_left _ (List.mem_singleton.mpr rfl))
  · intro hdiff
    rw [htr] at hdiff ⊢
    exact same_enclosure_step_diff ref rest args.same_enclosure hdiff

/-- Witness for the C5 theorem: two traces from enclosure E1 with the
user preference off end with the preference on and the notice printed. -/
theorem graph_environment_enclosure_detection_witness :
    (graph_environment argsOk).2.2 = true ∧
      Event.print (enclosureNoticeMsg "E1") ∈ (graph_environment argsOk).2.1 :=
  (graph_environment_enclosure_detection argsOk traceA [traceB] rfl rfl).1
    ⟨by decide, by decide⟩

/-! The validity gate of the environment stage. -/

theorem valid_traces_eq (traces : List Trace) :
    valid_traces traces =
      match first_missing traces with
      | some (t, m) => some (missingMetricMsg m t.get_filename)
      | none => none := by
  unfold valid_traces
  simp [List.length_map]

theorem missing_metric_none_iff (t : Trace) :
    missing_metric t = none ↔
      (t.first_bench.has_metric "chassis" = true ∧
        t.first_bench.has_metric "enclosure" = true) := by
  unfold missing_metric
  cases h1 : t.first_bench.has_metric "chassis" <;>
    cases h2 : t.first_bench.has_metric "enclosure" <;> simp [h1, h2]

theorem first_missing_none_iff (traces : List Trace) :
    first_missing traces = none ↔
      ∀ t ∈ traces, t.first_bench.has_metric "chassis" = true ∧
        t.first_bench.has_metric "enclosure" = true := by
  induction traces with
  | nil => simp [first_missing]
  | cons t rest ih =>
    simp only [first_missing]
    rcases hm : missing_metric t with _ | m
    · simp only [hm]
      rw [ih]
      constructor
      · intro h u hu
        rcases List.mem_cons.mp hu with rfl | hu
        · exact (missing_metric_none_iff u).mp hm
        · exact h u hu
      · intro h u hu
        exact h u (List.mem_cons_of_mem _ hu)
    · simp only [hm]
      constructor
      · intro h
        cases h
      · intro h
        have := (missing_metric_none_iff t).mpr (h t (List.mem_cons_self _ _))
        rw [this] at hm
        cases hm

/-- C6: the chassis-serial count check of `valid_traces` compares the
length of the mapped serial list with the number of traces, which always
agree, so the chassis-not-unique branch is never taken: `valid_traces` is
fully determined by the first missing chassis/enclosure metric, and the
gate passes exactly when every trace exposes both metrics on its first
bench. -/
theorem valid_traces_count_check (traces : List Trace) :
    (traces.map Trace.get_chassis_serial).length = traces.length ∧
    valid_traces traces =
      (match first_missing traces with
       | some (t, m) => some (missingMetricMsg m t.get_filename)
       | none => none) ∧
    (valid_traces traces = none ↔
      ∀ t ∈ traces, t.first_bench.has_metric "chassis" = true ∧
        t.first_bench.has_metric "enclosure" = true) := by
  refine ⟨List.length_map _ _, valid_traces_eq traces, ?_⟩
  rw [valid_traces_eq traces]
  rcases hm : first_missing traces with _ | tm
  · constructor
    · intro _
      exact (first_missing_none_iff traces).mp hm
    · intro _
      rfl
  · simp only [hm]
    rw [← first_missing_none_iff, hm]
    simp

/-- Witness for the C6 theorem at concrete inputs. -/
theorem valid_traces_count_check_witness :
    ([traceA, traceB].map Trace.get_chassis_serial).length = 2 ∧
    (valid_traces [traceA, traceB] = none ↔
      ∀ t ∈ [traceA, traceB], t.first_bench.has_metric "chassis" = true ∧
        t.first_bench.has_metric "enclosure" = true) :=
  ⟨(valid_traces_count_check [traceA, traceB]).1,
   (valid_traces_count_check [traceA, traceB]).2.2⟩

/-! Graceful degradation when a chassis/enclosure metric is missing. -/

theorem env_gate_missing (traces : List Trace) (t : Trace) (m : String)
    (h : first_missing traces = some (t, m)) :
    env_gate traces true = (0, [Event.print (missingMetricMsg m t.get_filename)]) := by
  show (match valid_traces traces with
        | none => enclosure_graphs traces
        | some msg => (0, [Event.print msg])) = _
  rw [valid_traces_eq traces, h]

theorem per_trace_env_print (traces : List Trace) :
    ∀ tr ∈ traces, Event.print (renderingMsg tr) ∈ (per_trace_env traces).2 := by
  intro tr htr
  refine mem_accumGraphs.mpr ⟨_, List.mem_map_of_mem _ htr, ?_⟩
  exact mem_accumGraphs.mpr
    ⟨(0, [Event.print (renderingMsg tr)]), List.mem_cons_self _ _,
     List.mem_singleton.mpr rfl⟩

theorem plot_graphs_jobs (args : Args) :
    ∀ j ∈ jobsOfArgs args, Event.scalingGraph j ∈ (plot_graphs args).2 ∧
      Event.individualGraph j ∈ (plot_graphs args).2 := by
  intro j hj
  cases htr : args.traces with
  | nil =>
    rw [jobsOfArgs, htr] at hj
    cases hj
  | cons ref rest =>
    rw [jobsOfArgs, htr] at hj
    simp only at hj
    simp only [plot_graphs, htr]
    constructor
    · refine List.mem_cons_of_mem _ (List.mem_append_left _ ?_)
      exact mem_accumGraphs.mpr
        ⟨scaling_graph j, List.mem_map_of_mem _ hj, List.mem_singleton.mpr rfl⟩
    · refine List.mem_cons_of_mem _
        (List.mem_append_right _ (List.mem_cons_of_mem _ ?_))
      exact mem_accumGraphs.mpr
        ⟨individual_graph j, List.mem_map_of_mem _ hj, List.mem_singleton.mpr rfl⟩

/-- C7: with the same-enclosure preference active and some trace lacking a
chassis or enclosure metric on its first bench, the run does not abort:
no environment-comparison graph is requested, the disabling notice naming
the offending trace file is printed, and the rest of the pipeline — the
per-trace fan/CPU/thermal dispatch, and the scaling and individual graph
stages — still proceeds. -/
theorem render_traces_missing_metric (args : Args) (t : Trace) (m : String)
    (henv : args.no_env = true)
    (hflag : resolved_same_enclosure args = true)
    (hmiss : first_missing args.traces = some (t, m))
    (hcmp : compare_traces args.traces = none) :
    ((render_traces args).2.filter Event.isEnclosureGraph) = [] ∧
    Event.print (missingMetricMsg m t.get_filename) ∈ (render_traces args).2 ∧
    ((render_traces args).2.all (fun e => !e.isFatal)) = true ∧
    (∀ tr ∈ args.traces, Event.print (renderingMsg tr) ∈ (render_traces args).2) ∧
    (∀ j ∈ jobsOfArgs args, Event.scalingGraph j ∈ (render_traces args).2 ∧
      Event.individualGraph j ∈ (render_traces args).2) := by
  have hflag2 : (same_enclosure_step args.traces args.same_enclosure).1 = true := hflag
  have h1 : (graph_environment args).2.1 =
      (same_enclosure_step args.traces args.same_enclosure).2 ++
        [Event.print (missingMetricMsg m t.get_filename)] ++
        (per_trace_env args.traces).2 := by
    rw [graph_environment_eq args henv]
    show (same_enclosure_step args.traces args.same_enclosure).2 ++
        (env_gate args.traces (same_enclosure_step args.traces args.same_enclosure).1).2 ++
        (per_trace_env args.traces).2 = _
    rw [hflag2, env_gate_missing args.traces t m hmiss]
  have hev : (render_traces args).2 =
      ((same_enclosure_step args.traces args.same_enclosure).2 ++
        [Event.print (missingMetricMsg m t.get_filename)] ++
        (per_trace_env args.traces).2) ++ Event.validate :: (plot_graphs args).2 := by
    unfold render_traces
    rw [hcmp]
    simp only
    rw [h1]
  have hkinds : ∀ e ∈ (render_traces args).2,
      e.isPerBenchKind = true ∨ e = Event.validate ∨ e.isPlotKind = true := by
    intro e he
    rw [hev] at he
    rcases List.mem_append.mp he with he | he
    · rcases List.mem_append.mp he with he | he
      · rcases List.mem_append.mp he with he | he
        · exact Or.inl (same_enclosure_step_events _ _ e he)
        · left
          rw [List.mem_singleton.mp he]
          rfl
      · exact Or.inl (per_trace_env_events _ e he)
    · rcases List.mem_cons.mp he with rfl | he
      · exact Or.inr (Or.inl rfl)
      · exact Or.inr (Or.inr (plot_graphs_events args e he))
  refine ⟨?_, ?_, ?_, ?_, ?_⟩
  · rw [List.filter_eq_nil_iff]
    intro e he hp
    rcases hkinds e he with hk | rfl | hk
    · rw [(perBenchKind_excludes e hk).1] at hp
      cases hp
    · cases hp
    · rw [(plotKind_excludes e hk).1] at hp
      cases hp
  · rw [hev]
    exact List.mem_append_left _
      (List.mem_append_left _ (List.mem_append_right _ (List.mem_singleton.mpr rfl)))
  · rw [List.all_eq_true]
    intro e he
    rcases hkinds e he with hk | rfl | hk
    · rw [(perBenchKind_excludes e hk).2.2.2]
      rfl
    · rfl
    · rw [(plotKind_excludes e hk).2.2]
      rfl
  · intro tr htr
    rw [hev]
    exact List.mem_append_left _
      (List.mem_append_right _ (per_trace_env_print args.traces tr htr))
  · intro j hj
    have hp := plot_graphs_jobs args j hj
    rw [hev]
    exact ⟨List.mem_append_right _ (List.mem_cons_of_mem _ hp.1),
           List.mem_append_right _ (List.mem_cons_of_mem _ hp.2)⟩

/-- Witness for the C7 theorem: `argsNoMetric` has the user preference on
and its second trace (m.json) lacks the chassis metric, yet the per-trace
dispatch and the comparison stages all go through. -/
theorem render_traces_missing_metric_witness :
    ((render_traces argsNoMetric).2.filter Event.isEnclosureGraph) = [] ∧
    Event.print (missingMetricMsg "chassis" "m.json") ∈ (render_traces argsNoMetric).2 ∧
    ((render_traces argsNoMetric).2.all (fun e => !e.isFatal)) = true ∧
    (∀ tr ∈ argsNoMetric.traces,
      Event.print (renderingMsg tr) ∈ (render_traces argsNoMetric).2) ∧
    (∀ j ∈ jobsOfArgs argsNoMetric,
      Event.scalingGraph j ∈ (render_traces argsNoMetric).2 ∧
        Event.individualGraph j ∈ (render_traces argsNoMetric).2) :=
  render_traces_missing_metric argsNoMetric traceNoMetric "chassis" rfl
    (by decide) (by decide) (by decide)

/-! The per-bench dispatchers. -/

/-- C8: the fan dispatcher returns 0 requests and prints the no-fans
notice when the bench has no fan components, and 2 + k requests when it
has k fans (one combined fan-speed graph per secondary axis in
thermal/power, plus one error-bar graph per fan). -/
theorem graph_fans_dispatch (trace : Trace) (bench_name : String) :
    ((trace.bench bench_name).fans.isEmpty = true →
      graph_fans trace bench_name = (0, [Event.print (bench_name ++ ": no fans")])) ∧
    ((trace.bench bench_name).fans.isEmpty = false →
      (graph_fans trace bench_name).1 = 2 + (trace.bench bench_name).fans.length) := by
  constructor
  · intro h
    simp [graph_fans, h]
  · intro h
    simp only [graph_fans, h, Bool.false_eq_true, if_false]
    rw [show ([generic_graph (trace.bench bench_name) "fan" "Fans speed" (some THERMAL),
        generic_graph (trace.bench bench_name) "fan" "Fans speed" (some POWER)] ++
        (trace.bench bench_name).fans.map
          (fun fan => yerr_graph (trace.bench bench_name) "fan" fan)) =
      generic_graph (trace.bench bench_name) "fan" "Fans speed" (some THERMAL) ::
        generic_graph (trace.bench bench_name) "fan" "Fans speed" (some POWER) ::
        (trace.bench bench_name).fans.map
          (fun fan => yerr_graph (trace.bench bench_name) "fan" fan) from rfl]
    rw [accumGraphs_cons, accumGraphs_cons,
      accumGraphs_map_single_fst _ (fun j => rfl) _]
    show 1 + (1 + (trace.bench bench_name).fans.length) =
      2 + (trace.bench bench_name).fans.length
    omega

/-- Witness for the C8 theorem: a bench with no fans gives 0 requests and
the notice; a bench with three fans gives 5 requests. -/
theorem graph_fans_dispatch_witness :
    graph_fans traceB "b2" = (0, [Event.print ("b2" ++ ": no fans")]) ∧
    (graph_fans traceA "b1").1 = 5 :=
  ⟨(graph_fans_dispatch traceB "b2").1 (by decide),
   ((graph_fans_dispatch traceA "b1").2 (by decide)).trans (by decide)⟩

/-- C9: the CPU dispatcher always issues exactly 9 graph requests — every
combination of the three metric families (core power, package power, core
frequency) with the three secondary-axis variants (none, thermal, power) —
whatever components the bench contains. -/
theorem graph_cpu_dispatch (trace : Trace) (bench_name : String) :
    (graph_cpu trace bench_name).1 = 9 ∧
    (graph_cpu trace bench_name).2 =
      [Event.genericGraph (trace.bench bench_name).name "watt_core"
         "Core power consumption" none,
       Event.genericGraph (trace.bench bench_name).name "watt_core"
         "Core power consumption" (some THERMAL),
       Event.genericGraph (trace.bench bench_name).name "watt_core"
         "Core power consumption" (some POWER),
       Event.genericGraph (trace.bench bench_name).name "package"
         "Package power consumption" none,
       Event.genericGraph (trace.bench bench_name).name "package"
         "Package power consumption" (some THERMAL),
       Event.genericGraph (trace.bench bench_name).name "package"
         "Package power consumption" (some POWER),
       Event.genericGraph (trace.bench bench_name).name "mhz_core"
         "Core frequency" none,
       Event.genericGraph (trace.bench bench_name).name "mhz_core"
         "Core frequency" (some THERMAL),
       Event.genericGraph (trace.bench bench_name).name "mhz_core"
         "Core frequency" (some POWER)] :=
  ⟨rfl, rfl⟩

/-! The job identity aggregator. -/

theorem filter_notmem_append (rest acc : List String) (j : String) :
    (rest.filter (fun y => !(acc.contains y))).filter (fun y => y != j) =
      rest.filter (fun y => !((acc ++ [j]).contains y)) := by
  rw [List.filter_filter]
  apply List.filter_congr
  intro y _
  by_cases h1 : y = j
  · subst h1
    simp [List.contains]
  · simp [List.contains, h1]

theorem foldl_dedup (l : List String) : ∀ acc : List String,
    l.foldl (fun jobs j => if jobs.contains j then jobs else jobs ++ [j]) acc =
      acc ++ dedupFirstSeen (l.filter (fun y => !(acc.contains y))) := by
  induction l with
  | nil =>
    intro acc
    simp [dedupFirstSeen]
  | cons j rest ih =>
    intro acc
    rw [List.foldl_cons]
    cases hj : acc.contains j with
    | true =>
      rw [if_pos rfl, ih acc]
      congr 1
      rw [List.filter_cons, hj, Bool.not_true]
      simp only [Bool.false_eq_true, if_false]
    | false =>
      rw [if_neg Bool.false_ne_true, ih (acc ++ [j])]
      rw [List.filter_cons, hj, Bool.not_false, if_pos rfl]
      rw [dedupFirstSeen]
      rw [filter_notmem_append rest acc j]
      simp [List.append_assoc]

theorem foldl_job_dedup (f : String → String) (l : List String) : ∀ acc : List String,
    l.foldl (fun jobs bn =>
        if jobs.contains (f bn) then jobs else jobs ++ [f bn]) acc =
      (l.map f).foldl (fun jobs j =>
        if jobs.contains j then jobs else jobs ++ [j]) acc := by
  induction l with
  | nil =>
    intro acc
    rfl
  | cons x xs ih =>
    intro acc
    rw [List.foldl_cons, List.map_cons, List.foldl_cons, ih]

theorem dedupFirstSeen_eq_foldl (l : List String) :
    dedupFirstSeen l =
      l.foldl (fun jobs j => if jobs.contains j then jobs else jobs ++ [j]) [] := by
  rw [foldl_dedup l []]
  simp

theorem jobs_of_eq (ref : Trace) :
    jobs_of ref = dedupFirstSeen ((sortedStrings ref.bench_list).map
      (fun bn => (ref.bench bn).job_name)) := by
  show (sortedStrings ref.bench_list).foldl
      (fun jobs bn => if jobs.contains ((ref.bench bn).job_name) then jobs
        else jobs ++ [(ref.bench bn).job_name]) [] = _
  rw [foldl_job_dedup (fun bn => (ref.bench bn).job_name) (sortedStrings ref.bench_list) []]
  rw [foldl_dedup]
  simp

theorem mem_dedupFirstSeen : ∀ (n : Nat) (l : List String), l.length ≤ n →
    ∀ a ∈ dedupFirstSeen l, a ∈ l := by
  intro n
  induction n with
  | zero =>
    intro l hl a ha
    cases l with
    | nil => simp [dedupFirstSeen] at ha
    | cons x xs => simp at hl
  | succ n ih =>
    intro l hl a ha
    cases l with
    | nil => simp [dedupFirstSeen] at ha
    | cons x xs =>
      rw [dedupFirstSeen] at ha
      rcases List.mem_cons.mp ha with rfl | ha
      · exact List.mem_cons_self _ _
      · have hlen : (xs.filter (fun y => y != x)).length ≤ n :=
          le_trans (List.length_filter_le _ _) (Nat.le_of_succ_le_succ hl)
        exact List.mem_cons_of_mem _
          (List.mem_of_mem_filter (ih _ hlen a ha))

theorem nodup_dedupFirstSeen : ∀ (n : Nat) (l : List String), l.length ≤ n →
    (dedupFirstSeen l).Nodup := by
  intro n
  induction n with
  | zero =>
    intro l hl
    cases l with
    | nil => simp [dedupFirstSeen]
    | cons x xs => simp at hl
  | succ n ih =>
    intro l hl
    cases l with
    | nil => simp [dedupFirstSeen]
    | cons x xs =>
      rw [dedupFirstSeen]
      refine List.nodup_cons.mpr ⟨?_,
        ih _ (le_trans (List.length_filter_le _ _) (Nat.le_of_succ_le_succ hl))⟩
      intro hx
      have hmem := mem_dedupFirstSeen _ _ le_rfl x hx
      have := List.of_mem_filter hmem
      simp at this

theorem accumGraphs_map_single (f : String → Event) (g : String → Nat × List Event)
    (hg : ∀ j, g j = (1, [f j])) (l : List String) :
    (accumGraphs (l.map g)).2 = l.map f := by
  induction l with
  | nil => rfl
  | cons x xs ih =>
    rw [List.map_cons, accumGraphs_cons, hg, ih]
    rfl

theorem plot_graphs_eq (args : Args) (ref : Trace) (rest : List Trace)
    (htr : args.traces = ref :: rest) :
    (plot_graphs args).2 =
      Event.print (scalingHeader (jobs_of ref).length) ::
        (jobs_of ref).map Event.scalingGraph ++
        Event.print (individualHeader (jobs_of ref).length) ::
          (jobs_of ref).map Event.individualGraph := by
  simp only [plot_graphs, htr]
  rw [accumGraphs_map_single Event.scalingGraph scaling_graph (fun j => rfl),
    accumGraphs_map_single Event.individualGraph individual_graph (fun j => rfl)]

/-- C10: the job identity list is the first-seen deduplication of the job
names read off the reference trace's bench names in sorted lexical order;
it contains no duplicates, and the scaling and the individual stages each
iterate over exactly that list. -/
theorem plot_graphs_job_identity (args : Args) (ref : Trace) (rest : List Trace)
    (htr : args.traces = ref :: rest) :
    jobs_of ref = dedupFirstSeen ((sortedStrings ref.bench_list).map
      (fun bn => (ref.bench bn).job_name)) ∧
    (jobs_of ref).Nodup ∧
    (plot_graphs args).2 =
      Event.print (scalingHeader (jobs_of ref).length) ::
        (jobs_of ref).map Event.scalingGraph ++
        Event.print (individualHeader (jobs_of ref).length) ::
          (jobs_of ref).map Event.individualGraph :=
  ⟨jobs_of_eq ref,
   by
    rw [jobs_of_eq ref]
    exact nodup_dedupFirstSeen _ _ le_rfl,
   plot_graphs_eq args ref rest htr⟩

/-- Witness for the C10 theorem: `traceJobs` reports the job-name sequence
A, B, A, C over its sorted bench names, and the identity list is
A, B, C. -/
theorem plot_graphs_job_identity_witness :
    ((sortedStrings traceJobs.bench_list).map
      (fun bn => (traceJobs.bench bn).job_name)) = ["A", "B", "A", "C"] ∧
    jobs_of traceJobs = ["A", "B", "C"] ∧
    dedupFirstSeen ["A", "B", "A", "C"] = ["A", "B", "C"] ∧
    (jobs_of traceJobs).Nodup :=
  ⟨by decide, by decide,
   by
    rw [dedupFirstSeen_eq_foldl]
    decide,
   (plot_graphs_job_identity argsJobs traceJobs [] rfl).2.1⟩

end HwGraph
